import Mathlib

/-!
Verification of the severity-gated routing engine of `p2s` (src/main.go).

The embedding models:
* the severity rank table `severityLevels` (a Go map with zero default),
* the `Vulnerability` message struct,
* the mutable `Config` struct and the `POST /config` handler that replaces it,
* the routing decision taken by `processVulnerability` (pure part: which
  channel, if any, receives the finding),
* the lock/dispatch event order of `processVulnerability` (for lock-discipline
  claims), and
* a small interleaving semantics of readers and writers synchronised by the
  `sync.RWMutex`, with write provenance tags, for the torn-read claims.
-/

namespace P2S

/-- `strings.ToUpper` restricted to ASCII, applied characterwise, as Go does
for the ASCII strings this program compares. -/
def goToUpper (s : String) : String :=
  ⟨s.data.map Char.toUpper⟩

/-- The Go map `severityLevels`; indexing a missing key yields the zero value. -/
def severityLevels (s : String) : Nat :=
  if s = "LOW" then 1
  else if s = "MEDIUM" then 2
  else if s = "HIGH" then 3
  else if s = "CRITICAL" then 4
  else 0

/-- The decoded pubsub message (struct `Vulnerability`). -/
structure Vulnerability where
  severity : String
  type : String
  description : String
  packageName : String
  resourceName : String
deriving DecidableEq, Repr

/-- The four data fields of the global `Config` struct (the `sync.RWMutex`
is modelled separately, in the interleaving semantics below). -/
structure ConfigState where
  osChannelName : String
  osMinSeverity : String
  appChannelName : String
  appMinSeverity : String
deriving DecidableEq, Repr

/-- The package-level initialiser of `config`. -/
def initialConfig : ConfigState :=
  ⟨"#os-vulns", "MEDIUM", "#app-vulns", "HIGH"⟩

/-- The `POST /config` handler body: under the write lock it assigns all four
fields from the form values (`c.PostForm` returns `""` for an absent field). -/
def postConfig (osCh osSev appCh appSev : String) (_ : ConfigState) : ConfigState :=
  ⟨osCh, osSev, appCh, appSev⟩

/-- The routing decision of `processVulnerability`: `some channel` when
`sendToSlack(channel, v)` is called, `none` otherwise. -/
def processVulnerability (cfg : ConfigState) (v : Vulnerability) : Option String :=
  let severityRank := severityLevels (goToUpper v.severity)
  if v.type = "OS" ∧ severityRank ≥ severityLevels cfg.osMinSeverity then
    some cfg.osChannelName
  else if v.type = "APP" ∧ severityRank ≥ severityLevels cfg.appMinSeverity then
    some cfg.appChannelName
  else
    none

/-- A label of the closed severity set, spelled exactly as the map keys. -/
def knownLabel (s : String) : Prop :=
  s = "LOW" ∨ s = "MEDIUM" ∨ s = "HIGH" ∨ s = "CRITICAL"

/-- A label outside the closed severity set. -/
def unknownLabel (s : String) : Prop :=
  s ≠ "LOW" ∧ s ≠ "MEDIUM" ∧ s ≠ "HIGH" ∧ s ≠ "CRITICAL"

instance (s : String) : Decidable (knownLabel s) := by
  unfold knownLabel; infer_instance

instance (s : String) : Decidable (unknownLabel s) := by
  unfold unknownLabel; infer_instance

theorem severityLevels_of_unknown {s : String} (h : unknownLabel s) :
    severityLevels s = 0 := by
  obtain ⟨h1, h2, h3, h4⟩ := h
  simp [severityLevels, h1, h2, h3, h4]

theorem severityLevels_pos_of_known {s : String} (h : knownLabel s) :
    1 ≤ severityLevels s := by
  rcases h with h | h | h | h <;> simp [severityLevels, h]

theorem char_toNat_ofNat {n : Nat} (h : n < 0xd800) : (Char.ofNat n).toNat = n := by
  rw [Char.ofNat, dif_pos (Or.inl h), Char.ofNatAux]
  simp [Char.toNat, UInt32.toNat]

theorem char_toUpper_idem (c : Char) : c.toUpper.toUpper = c.toUpper := by
  unfold Char.toUpper
  by_cases h : 97 ≤ c.toNat ∧ c.toNat ≤ 122
  · rw [if_pos h]
    have hv : c.toNat - 32 < 0xd800 := by omega
    rw [if_neg]
    rw [char_toNat_ofNat hv]
    omega
  · rw [if_neg h, if_neg h]

theorem goToUpper_idem (s : String) : goToUpper (goToUpper s) = goToUpper s := by
  simp [goToUpper, List.map_map, Function.comp_def, char_toUpper_idem]

/-- C4: `severityLevels` is a total function on strings mapping LOW to 1,
MEDIUM to 2, HIGH to 3, CRITICAL to 4, and every other string (the empty
string included) to 0. -/
theorem C4_severityLevels_total :
    severityLevels "LOW" = 1 ∧ severityLevels "MEDIUM" = 2 ∧
    severityLevels "HIGH" = 3 ∧ severityLevels "CRITICAL" = 4 ∧
    ∀ s : String, unknownLabel s → severityLevels s = 0 :=
  ⟨by decide, by decide, by decide, by decide, fun _ h => severityLevels_of_unknown h⟩

/-- Witness for C4 at the empty string. -/
theorem C4_witness : severityLevels "" = 0 :=
  C4_severityLevels_total.2.2.2.2 "" (by decide)

/-- C1 counterexample: a finding with the unrecognized severity "SEVERE"
(already uppercase) at category OS does dispatch when the configured OS
threshold is the unrecognized label "medium" (installed by a `POST /config`),
so the claim "never dispatches regardless of the configured threshold" fails. -/
theorem C1_counterexample :
    ¬ (processVulnerability (postConfig "#os-vulns" "medium" "#app-vulns" "HIGH" initialConfig)
        ⟨"SEVERE", "OS", "", "", ""⟩ = none) := by
  decide

/-- C1 amended: a finding whose severity is outside the closed set (after
uppercasing) is never dispatched, for any category, provided only that the
threshold configured for the finding's own category is a label of the closed
set; the other category's threshold is unconstrained. -/
theorem C1_unknown_severity_no_dispatch (cfg : ConfigState) (v : Vulnerability)
    (h : unknownLabel (goToUpper v.severity))
    (hOS : v.type = "OS" → knownLabel cfg.osMinSeverity)
    (hAPP : v.type = "APP" → knownLabel cfg.appMinSeverity) :
    processVulnerability cfg v = none := by
  have h0 := severityLevels_of_unknown h
  simp only [processVulnerability, h0]
  rw [if_neg, if_neg]
  · rintro ⟨ht, hge⟩
    have := severityLevels_pos_of_known (hAPP ht)
    omega
  · rintro ⟨ht, hge⟩
    have := severityLevels_pos_of_known (hOS ht)
    omega

/-- Witness for the amended C1: severity "unknown" at category OS produces no
dispatch under a configuration whose OS threshold is MEDIUM while the APP
threshold is the unknown label "" (installed by a partial `POST /config`). -/
theorem C1_witness :
    processVulnerability (postConfig "#os-vulns" "MEDIUM" "#app-vulns" "" initialConfig)
      ⟨"unknown", "OS", "", "", ""⟩ = none :=
  C1_unknown_severity_no_dispatch
    (postConfig "#os-vulns" "MEDIUM" "#app-vulns" "" initialConfig)
    ⟨"unknown", "OS", "", "", ""⟩ (by decide) (by decide) (by decide)

/-- C2: for a finding of a known category whose configured threshold is a
known label, a dispatch to that category's channel happens exactly when the
rank of the (uppercased) finding severity is at least the rank of the
threshold; the comparison is inclusive. -/
theorem C2_threshold_iff_dispatch (cfg : ConfigState) (v : Vulnerability) :
    (v.type = "OS" → knownLabel cfg.osMinSeverity →
      (processVulnerability cfg v = some cfg.osChannelName ↔
        severityLevels (goToUpper v.severity) ≥ severityLevels cfg.osMinSeverity)) ∧
    (v.type = "APP" → knownLabel cfg.appMinSeverity →
      (processVulnerability cfg v = some cfg.appChannelName ↔
        severityLevels (goToUpper v.severity) ≥ severityLevels cfg.appMinSeverity)) := by
  constructor
  · intro ht _
    by_cases hge : severityLevels (goToUpper v.severity) ≥ severityLevels cfg.osMinSeverity
    · simp [processVulnerability, ht, hge]
    · have : v.type ≠ "APP" := by rw [ht]; decide
      simp [processVulnerability, ht, hge, this]
  · intro ht _
    have hne : v.type ≠ "OS" := by rw [ht]; decide
    by_cases hge : severityLevels (goToUpper v.severity) ≥ severityLevels cfg.appMinSeverity
    · simp [processVulnerability, ht, hge, hne]
    · simp [processVulnerability, ht, hge, hne]

/-- Witness for C2: the default OS threshold is MEDIUM, and a MEDIUM finding
(exact tie) dispatches to the OS channel. -/
theorem C2_witness :
    processVulnerability initialConfig ⟨"MEDIUM", "OS", "", "", ""⟩ =
      some initialConfig.osChannelName ↔
    severityLevels (goToUpper "MEDIUM") ≥ severityLevels initialConfig.osMinSeverity :=
  (C2_threshold_iff_dispatch initialConfig ⟨"MEDIUM", "OS", "", "", ""⟩).1 rfl (by decide)

/-- C5: a finding whose category is neither "OS" nor "APP" is never
dispatched, whatever its severity and whatever the configuration. -/
theorem C5_unknown_category_no_dispatch (cfg : ConfigState) (v : Vulnerability)
    (h1 : v.type ≠ "OS") (h2 : v.type ≠ "APP") :
    processVulnerability cfg v = none := by
  simp [processVulnerability, h1, h2]

/-- Witness for C5: a HIGH finding of category NETWORK is not dispatched. -/
theorem C5_witness :
    processVulnerability initialConfig ⟨"HIGH", "NETWORK", "", "", ""⟩ = none :=
  C5_unknown_category_no_dispatch initialConfig ⟨"HIGH", "NETWORK", "", "", ""⟩
    (by decide) (by decide)

/-- C8: when a category's configured threshold is any string other than the
four labels exactly in uppercase, its lookup rank is 0, so every finding of
that category dispatches — findings with unrecognized severities included. -/
theorem C8_unknown_threshold_always_dispatches (cfg : ConfigState) (v : Vulnerability) :
    (v.type = "OS" → unknownLabel cfg.osMinSeverity →
      processVulnerability cfg v = some cfg.osChannelName) ∧
    (v.type = "APP" → unknownLabel cfg.appMinSeverity →
      processVulnerability cfg v = some cfg.appChannelName) := by
  constructor
  · intro ht hu
    have h0 := severityLevels_of_unknown hu
    simp [processVulnerability, ht, h0]
  · intro ht hu
    have h0 := severityLevels_of_unknown hu
    have hne : v.type ≠ "OS" := by rw [ht]; decide
    simp [processVulnerability, ht, h0, hne]

/-- Witness for C8: after the operator posts the lowercase threshold
"medium" for OS, a finding with unrecognized severity "bogus" dispatches. -/
theorem C8_witness :
    processVulnerability (postConfig "#os-vulns" "medium" "#app-vulns" "HIGH" initialConfig)
      ⟨"bogus", "OS", "", "", ""⟩ =
    some (postConfig "#os-vulns" "medium" "#app-vulns" "HIGH" initialConfig).osChannelName :=
  (C8_unknown_threshold_always_dispatches
      (postConfig "#os-vulns" "medium" "#app-vulns" "HIGH" initialConfig)
      ⟨"bogus", "OS", "", "", ""⟩).1 rfl (by decide)

/-- C9: uppercasing a finding's severity never changes the decision, while a
category that is a non-uppercase casing of "OS" or "APP" never dispatches. -/
theorem C9_case_sensitivity (cfg : ConfigState) (v : Vulnerability) :
    processVulnerability cfg { v with severity := goToUpper v.severity } =
      processVulnerability cfg v ∧
    ((goToUpper v.type = "OS" ∨ goToUpper v.type = "APP") → v.type ≠ "OS" → v.type ≠ "APP" →
      processVulnerability cfg v = none) := by
  constructor
  · simp [processVulnerability, goToUpper_idem]
  · intro _ h1 h2
    simp [processVulnerability, h1, h2]

/-- Witness for C9: a CRITICAL finding with the lowercase category "os" is
not dispatched. -/
theorem C9_witness :
    processVulnerability initialConfig ⟨"CRITICAL", "os", "", "", ""⟩ = none :=
  (C9_case_sensitivity initialConfig ⟨"CRITICAL", "os", "", "", ""⟩).2
    (by decide) (by decide) (by decide)

/-- C10: the decision (whether to dispatch and to which channel) depends only
on the finding's severity and category, never on its descriptive fields. -/
theorem C10_decision_depends_only_on_severity_type (cfg : ConfigState)
    (v1 v2 : Vulnerability) (hs : v1.severity = v2.severity) (ht : v1.type = v2.type) :
    processVulnerability cfg v1 = processVulnerability cfg v2 := by
  simp only [processVulnerability, hs, ht]

/-- Witness for C10: two HIGH OS findings with different descriptions,
packages and resources get the same decision. -/
theorem C10_witness :
    processVulnerability initialConfig ⟨"HIGH", "OS", "d1", "p1", "r1"⟩ =
      processVulnerability initialConfig ⟨"HIGH", "OS", "d2", "p2", "r2"⟩ :=
  C10_decision_depends_only_on_severity_type initialConfig
    ⟨"HIGH", "OS", "d1", "p1", "r1"⟩ ⟨"HIGH", "OS", "d2", "p2", "r2"⟩ rfl rfl

/-- C3 counterexample: a `POST /config` that installs a new OS rule while the
APP form fields are absent (so `PostForm` yields "") overwrites the APP
threshold, so the other category's rule is not left unchanged. -/
theorem C3_counterexample :
    ¬ ((postConfig "#os-custom" "LOW" "" "" initialConfig).appMinSeverity =
        initialConfig.appMinSeverity) := by
  decide

/-- C3 amended: the handler replaces all four fields with the submitted form
values, so the target category receives the new rule, and another category is
unchanged exactly when the form carries that category's current values (as a
form rendered from the current configuration does). -/
theorem C3_full_replacement_frame (cfg : ConfigState) (osCh osSev appCh appSev : String) :
    ((postConfig osCh osSev cfg.appChannelName cfg.appMinSeverity cfg).osChannelName = osCh ∧
     (postConfig osCh osSev cfg.appChannelName cfg.appMinSeverity cfg).osMinSeverity = osSev ∧
     (postConfig osCh osSev cfg.appChannelName cfg.appMinSeverity cfg).appChannelName =
       cfg.appChannelName ∧
     (postConfig osCh osSev cfg.appChannelName cfg.appMinSeverity cfg).appMinSeverity =
       cfg.appMinSeverity) ∧
    ((postConfig cfg.osChannelName cfg.osMinSeverity appCh appSev cfg).appChannelName = appCh ∧
     (postConfig cfg.osChannelName cfg.osMinSeverity appCh appSev cfg).appMinSeverity = appSev ∧
     (postConfig cfg.osChannelName cfg.osMinSeverity appCh appSev cfg).osChannelName =
       cfg.osChannelName ∧
     (postConfig cfg.osChannelName cfg.osMinSeverity appCh appSev cfg).osMinSeverity =
       cfg.osMinSeverity) :=
  ⟨⟨rfl, rfl, rfl, rfl⟩, ⟨rfl, rfl, rfl, rfl⟩⟩

/-! ### Lock/dispatch event order of `processVulnerability` (claim C7)

The Go function acquires the read lock on entry and releases it with
`defer config.Mutex.RUnlock()`, which runs when the function returns —
after any `sendToSlack` call made inside the body. -/

/-- Events of one `processVulnerability` call that matter for the lock
discipline. -/
inductive LockEvent
  | rlock
  | runlock
  | dispatchCall (channel : String)
deriving DecidableEq, Repr

/-- The events of a `processVulnerability` call in program order: `RLock` on
entry, the `sendToSlack` call when the decision dispatches, and the deferred
`RUnlock` at function exit. -/
def processVulnerabilityTrace (cfg : ConfigState) (v : Vulnerability) : List LockEvent :=
  [LockEvent.rlock] ++
    (match processVulnerability cfg v with
      | some ch => [LockEvent.dispatchCall ch]
      | none => []) ++
    [LockEvent.runlock]

/-- Whether some dispatch call in the trace happens while the read lock is
held (`n` counts currently held read locks). -/
def dispatchUnderLock : List LockEvent → Nat → Bool
  | [], _ => false
  | LockEvent.rlock :: es, n => dispatchUnderLock es (n + 1)
  | LockEvent.runlock :: es, n => dispatchUnderLock es (n - 1)
  | LockEvent.dispatchCall _ :: es, n => decide (0 < n) || dispatchUnderLock es n

/-- C7 fails on the code: for a dispatching finding (CRITICAL at OS under the
default configuration) the outbound call happens strictly between `RLock` and
the deferred `RUnlock`, so the decision path does hold the configuration lock
across the blocking dispatch. -/
theorem C7_lock_held_across_dispatch :
    dispatchUnderLock
      (processVulnerabilityTrace initialConfig ⟨"CRITICAL", "OS", "", "", ""⟩) 0 = true := by
  decide

/-! ### Interleaved readers and writers of the shared `Config` (claim C6)

A small-step semantics of the shared `Config` guarded by its
`sync.RWMutex`: writer goroutines run the `POST /config` handler body (four
field stores under the exclusive lock), the reader goroutine runs the field
reads of `processVulnerability` under the shared lock.  Every stored string
carries a provenance tag — 0 for the package-level initialiser, and a fresh
tag per writer job — so that a torn read would show up as differing tags in
one observed snapshot. -/

/-- A configuration field value together with the write that produced it. -/
structure TaggedStr where
  val : String
  tag : Nat
deriving DecidableEq, Repr

/-- The four data fields of `Config` with provenance tags. -/
structure TCfg where
  osCh : TaggedStr
  osSev : TaggedStr
  appCh : TaggedStr
  appSev : TaggedStr
deriving DecidableEq, Repr

/-- The `sync.RWMutex`: free, held by the reader, or held by a writer. -/
inductive LockSt
  | free
  | rlocked
  | wlocked
deriving DecidableEq, Repr

/-- The form values a `POST /config` writer stores, with its fresh tag. -/
structure WJob where
  osCh : String
  osSev : String
  appCh : String
  appSev : String
  tag : Nat
deriving DecidableEq, Repr

/-- Program counter of a writer goroutine in the handler body: idle, or
about to store the i-th field of its job (the fourth store and the deferred
`Unlock` form one step). -/
inductive WPC
  | idle
  | w1 (j : WJob)
  | w2 (j : WJob)
  | w3 (j : WJob)
  | w4 (j : WJob)
deriving DecidableEq, Repr

/-- Program counter of the reader goroutine: idle, about to read the i-th
field (remembering the earlier ones), or finished with its four observed
values (the fourth read and the deferred `RUnlock` form one step). -/
inductive RPC
  | idle
  | r1
  | r2 (a : TaggedStr)
  | r3 (a b : TaggedStr)
  | r4 (a b c : TaggedStr)
  | done (a b c d : TaggedStr)
deriving DecidableEq, Repr

/-- The whole shared-memory system: the tagged configuration, the lock, two
writer goroutines, the reader goroutine, and a fresh-tag counter. -/
structure Sys where
  cfg : TCfg
  lock : LockSt
  writers : Bool → WPC
  rd : RPC
  nextTag : Nat

/-- The tagged image of the package-level initialiser of `config`. -/
def initTCfg : TCfg :=
  ⟨⟨"#os-vulns", 0⟩, ⟨"MEDIUM", 0⟩, ⟨"#app-vulns", 0⟩, ⟨"HIGH", 0⟩⟩

/-- Process start: initial configuration, lock free, all goroutines idle. -/
def initSys : Sys :=
  ⟨initTCfg, LockSt.free, fun _ => WPC.idle, RPC.idle, 1⟩

/-- One interleaving step of the system. -/
inductive Step : Sys → Sys → Prop
  | wAcquire (s : Sys) (i : Bool) (osCh osSev appCh appSev : String) :
      s.lock = LockSt.free → s.writers i = WPC.idle →
      Step s { s with lock := LockSt.wlocked,
                      writers := Function.update s.writers i
                        (WPC.w1 ⟨osCh, osSev, appCh, appSev, s.nextTag⟩),
                      nextTag := s.nextTag + 1 }
  | wStore1 (s : Sys) (i : Bool) (j : WJob) :
      s.writers i = WPC.w1 j →
      Step s { s with cfg := { s.cfg with osCh := ⟨j.osCh, j.tag⟩ },
                      writers := Function.update s.writers i (WPC.w2 j) }
  | wStore2 (s : Sys) (i : Bool) (j : WJob) :
      s.writers i = WPC.w2 j →
      Step s { s with cfg := { s.cfg with osSev := ⟨j.osSev, j.tag⟩ },
                      writers := Function.update s.writers i (WPC.w3 j) }
  | wStore3 (s : Sys) (i : Bool) (j : WJob) :
      s.writers i = WPC.w3 j →
      Step s { s with cfg := { s.cfg with appCh := ⟨j.appCh, j.tag⟩ },
                      writers := Function.update s.writers i (WPC.w4 j) }
  | wStore4 (s : Sys) (i : Bool) (j : WJob) :
      s.writers i = WPC.w4 j →
      Step s { s with cfg := { s.cfg with appSev := ⟨j.appSev, j.tag⟩ },
                      lock := LockSt.free,
                      writers := Function.update s.writers i WPC.idle }
  | rAcquire (s : Sys) :
      s.rd = RPC.idle → s.lock = LockSt.free →
      Step s { s with lock := LockSt.rlocked, rd := RPC.r1 }
  | rLoad1 (s : Sys) :
      s.rd = RPC.r1 →
      Step s { s with rd := RPC.r2 s.cfg.osCh }
  | rLoad2 (s : Sys) (a : TaggedStr) :
      s.rd = RPC.r2 a →
      Step s { s with rd := RPC.r3 a s.cfg.osSev }
  | rLoad3 (s : Sys) (a b : TaggedStr) :
      s.rd = RPC.r3 a b →
      Step s { s with rd := RPC.r4 a b s.cfg.appCh }
  | rLoad4 (s : Sys) (a b c : TaggedStr) :
      s.rd = RPC.r4 a b c →
      Step s { s with lock := LockSt.free, rd := RPC.done a b c s.cfg.appSev }
  | rRestart (s : Sys) (a b c d : TaggedStr) :
      s.rd = RPC.done a b c d →
      Step s { s with rd := RPC.idle }

/-- States reachable from process start. -/
inductive Reach : Sys → Prop
  | init : Reach initSys
  | step {s s' : Sys} : Reach s → Step s s' → Reach s'

/-- A writer goroutine is inside the critical section. -/
def wBusy : WPC → Prop
  | WPC.idle => False
  | _ => True

instance (p : WPC) : Decidable (wBusy p) := by
  cases p <;> simp [wBusy] <;> infer_instance

/-- The reader goroutine is inside the critical section. -/
def midRead : RPC → Prop
  | RPC.idle => False
  | RPC.done _ _ _ _ => False
  | _ => True

instance (p : RPC) : Decidable (midRead p) := by
  cases p <;> simp [midRead] <;> infer_instance

/-- All four stored fields carry the same provenance tag. -/
def tagsAligned (c : TCfg) : Prop :=
  c.osCh.tag = c.osSev.tag ∧ c.osSev.tag = c.appCh.tag ∧ c.appCh.tag = c.appSev.tag

/-- What a busy writer has already stored. -/
def wFields (c : TCfg) : WPC → Prop
  | WPC.w2 j => c.osCh.tag = j.tag
  | WPC.w3 j => c.osCh.tag = j.tag ∧ c.osSev.tag = j.tag
  | WPC.w4 j => c.osCh.tag = j.tag ∧ c.osSev.tag = j.tag ∧ c.appCh.tag = j.tag
  | _ => True

/-- What the reader has observed so far (and, once done, that its snapshot
is untorn). -/
def rFields (c : TCfg) : RPC → Prop
  | RPC.r2 a => a = c.osCh
  | RPC.r3 a b => a = c.osCh ∧ b = c.osSev
  | RPC.r4 a b c' => a = c.osCh ∧ b = c.osSev ∧ c' = c.appCh
  | RPC.done a b c' d => a.tag = b.tag ∧ b.tag = c'.tag ∧ c'.tag = d.tag
  | _ => True

/-- The inductive invariant: the lock protocol is respected, the
configuration is never tag-mixed outside a write critical section, and the
goroutines' local views are consistent with the shared state. -/
structure Inv (s : Sys) : Prop where
  wlock : ∀ i : Bool, wBusy (s.writers i) → s.lock = LockSt.wlocked
  wexcl : ∀ i k : Bool, wBusy (s.writers i) → wBusy (s.writers k) → i = k
  rlock : midRead s.rd → s.lock = LockSt.rlocked
  aligned : s.lock ≠ LockSt.wlocked → tagsAligned s.cfg
  winv : ∀ i : Bool, wFields s.cfg (s.writers i)
  rinv : rFields s.cfg s.rd

theorem idle_of_other_busy {s : Sys} (hs : Inv s) {i k : Bool} (hk : k ≠ i)
    (hb : wBusy (s.writers i)) : s.writers k = WPC.idle := by
  cases h : s.writers k with
  | idle => rfl
  | w1 j => exact absurd (hs.wexcl k i (by rw [h]; trivial) hb) hk
  | w2 j => exact absurd (hs.wexcl k i (by rw [h]; trivial) hb) hk
  | w3 j => exact absurd (hs.wexcl k i (by rw [h]; trivial) hb) hk
  | w4 j => exact absurd (hs.wexcl k i (by rw [h]; trivial) hb) hk

theorem Inv_step {s s' : Sys} (hs : Inv s) (st : Step s s') : Inv s' := by
  cases st with
  | wAcquire i osCh osSev appCh appSev hfree hidle =>
    refine ⟨?_, ?_, ?_, ?_, ?_, ?_⟩
    · intro k _; rfl
    · intro k l hk hl
      have hto : ∀ m : Bool,
          wBusy (Function.update s.writers i
            (WPC.w1 ⟨osCh, osSev, appCh, appSev, s.nextTag⟩) m) → m = i := by
        intro m hm
        by_contra hne
        rw [Function.update_noteq hne] at hm
        have := hs.wlock m hm
        rw [hfree] at this
        exact absurd this (by decide)
      rw [hto k hk, hto l hl]
    · intro hm
      exfalso
      have := hs.rlock hm
      rw [hfree] at this
      exact absurd this (by decide)
    · intro h; exact absurd rfl h
    · intro k
      dsimp only
      rcases eq_or_ne k i with rfl | hne
      · rw [Function.update_same]; trivial
      · rw [Function.update_noteq hne]; exact hs.winv k
    · exact hs.rinv
  | wStore1 i j hw =>
    have hbusy : wBusy (s.writers i) := by rw [hw]; trivial
    have hwl : s.lock = LockSt.wlocked := hs.wlock i hbusy
    have hnr : ¬ midRead s.rd := by
      intro hm
      have := hs.rlock hm
      rw [hwl] at this
      exact absurd this (by decide)
    refine ⟨?_, ?_, ?_, ?_, ?_, ?_⟩
    · intro k _; exact hwl
    · have hmono : ∀ m : Bool, wBusy (Function.update s.writers i (WPC.w2 j) m) →
          wBusy (s.writers m) := by
        intro m hm
        rcases eq_or_ne m i with rfl | hne
        · rw [hw]; trivial
        · rwa [Function.update_noteq hne] at hm
      exact fun k l hk hl => hs.wexcl k l (hmono k hk) (hmono l hl)
    · intro hm; exact absurd hm hnr
    · intro h; exact absurd hwl h
    · intro k
      dsimp only
      rcases eq_or_ne k i with rfl | hne
      · rw [Function.update_same]; exact rfl
      · rw [Function.update_noteq hne, idle_of_other_busy hs hne hbusy]; trivial
    · cases hr : s.rd with
      | idle => trivial
      | done a b c d => have := hs.rinv; rw [hr] at this; exact this
      | r1 => trivial
      | r2 a => exact absurd (show midRead s.rd by rw [hr]; trivial) hnr
      | r3 a b => exact absurd (show midRead s.rd by rw [hr]; trivial) hnr
      | r4 a b c => exact absurd (show midRead s.rd by rw [hr]; trivial) hnr
  | wStore2 i j hw =>
    have hbusy : wBusy (s.writers i) := by rw [hw]; trivial
    have hwl : s.lock = LockSt.wlocked := hs.wlock i hbusy
    have hnr : ¬ midRead s.rd := by
      intro hm
      have := hs.rlock hm
      rw [hwl] at this
      exact absurd this (by decide)
    have hprev : s.cfg.osCh.tag = j.tag := by
      have := hs.winv i; rw [hw] at this; exact this
    refine ⟨?_, ?_, ?_, ?_, ?_, ?_⟩
    · intro k _; exact hwl
    · have hmono : ∀ m : Bool, wBusy (Function.update s.writers i (WPC.w3 j) m) →
          wBusy (s.writers m) := by
        intro m hm
        rcases eq_or_ne m i with rfl | hne
        · rw [hw]; trivial
        · rwa [Function.update_noteq hne] at hm
      exact fun k l hk hl => hs.wexcl k l (hmono k hk) (hmono l hl)
    · intro hm; exact absurd hm hnr
    · intro h; exact absurd hwl h
    · intro k
      dsimp only
      rcases eq_or_ne k i with rfl | hne
      · rw [Function.update_same]; exact ⟨hprev, rfl⟩
      · rw [Function.update_noteq hne, idle_of_other_busy hs hne hbusy]; trivial
    · cases hr : s.rd with
      | idle => trivial
      | done a b c d => have := hs.rinv; rw [hr] at this; exact this
      | r1 => trivial
      | r2 a => exact absurd (show midRead s.rd by rw [hr]; trivial) hnr
      | r3 a b => exact absurd (show midRead s.rd by rw [hr]; trivial) hnr
      | r4 a b c => exact absurd (show midRead s.rd by rw [hr]; trivial) hnr
  | wStore3 i j hw =>
    have hbusy : wBusy (s.writers i) := by rw [hw]; trivial
    have hwl : s.lock = LockSt.wlocked := hs.wlock i hbusy
    have hnr : ¬ midRead s.rd := by
      intro hm
      have := hs.rlock hm
      rw [hwl] at this
      exact absurd this (by decide)
    have hprev : s.cfg.osCh.tag = j.tag ∧ s.cfg.osSev.tag = j.tag := by
      have := hs.winv i; rw [hw] at this; exact this
    refine ⟨?_, ?_, ?_, ?_, ?_, ?_⟩
    · intro k _; exact hwl
    · have hmono : ∀ m : Bool, wBusy (Function.update s.writers i (WPC.w4 j) m) →
          wBusy (s.writers m) := by
        intro m hm
        rcases eq_or_ne m i with rfl | hne
        · rw [hw]; trivial
        · rwa [Function.update_noteq hne] at hm
      exact fun k l hk hl => hs.wexcl k l (hmono k hk) (hmono l hl)
    · intro hm; exact absurd hm hnr
    · intro h; exact absurd hwl h
    · intro k
      dsimp only
      rcases eq_or_ne k i with rfl | hne
      · rw [Function.update_same]; exact ⟨hprev.1, hprev.2, rfl⟩
      · rw [Function.update_noteq hne, idle_of_other_busy hs hne hbusy]; trivial
    · cases hr : s.rd with
      | idle => trivial
      | done a b c d => have := hs.rinv; rw [hr] at this; exact this
      | r1 => trivial
      | r2 a => exact absurd (show midRead s.rd by rw [hr]; trivial) hnr
      | r3 a b => exact absurd (show midRead s.rd by rw [hr]; trivial) hnr
      | r4 a b c => exact absurd (show midRead s.rd by rw [hr]; trivial) hnr
  | wStore4 i j hw =>
    have hbusy : wBusy (s.writers i) := by rw [hw]; trivial
    have hwl : s.lock = LockSt.wlocked := hs.wlock i hbusy
    have hnr : ¬ midRead s.rd := by
      intro hm
      have := hs.rlock hm
      rw [hwl] at this
      exact absurd this (by decide)
    have hprev : s.cfg.osCh.tag = j.tag ∧ s.cfg.osSev.tag = j.tag ∧
        s.cfg.appCh.tag = j.tag := by
      have := hs.winv i; rw [hw] at this; exact this
    have hnone : ∀ m : Bool, Function.update s.writers i WPC.idle m = WPC.idle := by
      intro m
      rcases eq_or_ne m i with rfl | hne
      · rw [Function.update_same]
      · rw [Function.update_noteq hne, idle_of_other_busy hs hne hbusy]
    refine ⟨?_, ?_, ?_, ?_, ?_, ?_⟩
    · intro k hk; dsimp only at hk; rw [hnone k] at hk; exact hk.elim
    · intro k l hk _; dsimp only at hk; rw [hnone k] at hk; exact hk.elim
    · intro hm; exact absurd hm hnr
    · intro _
      exact ⟨by rw [hprev.1, hprev.2.1], by rw [hprev.2.1, hprev.2.2], hprev.2.2⟩
    · intro k; dsimp only; rw [hnone k]; trivial
    · cases hr : s.rd with
      | idle => trivial
      | done a b c d => have := hs.rinv; rw [hr] at this; exact this
      | r1 => trivial
      | r2 a => exact absurd (show midRead s.rd by rw [hr]; trivial) hnr
      | r3 a b => exact absurd (show midRead s.rd by rw [hr]; trivial) hnr
      | r4 a b c => exact absurd (show midRead s.rd by rw [hr]; trivial) hnr
  | rAcquire hrd hfree =>
    refine ⟨?_, ?_, ?_, ?_, ?_, ?_⟩
    · intro k hk
      exfalso
      have := hs.wlock k hk
      rw [hfree] at this
      exact absurd this (by decide)
    · exact hs.wexcl
    · intro _; rfl
    · intro _; exact hs.aligned (by rw [hfree]; decide)
    · exact hs.winv
    · trivial
  | rLoad1 hrd =>
    have hrl : s.lock = LockSt.rlocked := hs.rlock (by rw [hrd]; trivial)
    refine ⟨?_, ?_, ?_, ?_, ?_, ?_⟩
    · intro k hk
      exfalso
      have := hs.wlock k hk
      rw [hrl] at this
      exact absurd this (by decide)
    · exact hs.wexcl
    · intro _; exact hrl
    · exact hs.aligned
    · exact hs.winv
    · exact rfl
  | rLoad2 a hrd =>
    have hrl : s.lock = LockSt.rlocked := hs.rlock (by rw [hrd]; trivial)
    have hprev : a = s.cfg.osCh := by
      have := hs.rinv; rw [hrd] at this; exact this
    refine ⟨?_, ?_, ?_, ?_, ?_, ?_⟩
    · intro k hk
      exfalso
      have := hs.wlock k hk
      rw [hrl] at this
      exact absurd this (by decide)
    · exact hs.wexcl
    · intro _; exact hrl
    · exact hs.aligned
    · exact hs.winv
    · exact ⟨hprev, rfl⟩
  | rLoad3 a b hrd =>
    have hrl : s.lock = LockSt.rlocked := hs.rlock (by rw [hrd]; trivial)
    have hprev : a = s.cfg.osCh ∧ b = s.cfg.osSev := by
      have := hs.rinv; rw [hrd] at this; exact this
    refine ⟨?_, ?_, ?_, ?_, ?_, ?_⟩
    · intro k hk
      exfalso
      have := hs.wlock k hk
      rw [hrl] at this
      exact absurd this (by decide)
    · exact hs.wexcl
    · intro _; exact hrl
    · exact hs.aligned
    · exact hs.winv
    · exact ⟨hprev.1, hprev.2, rfl⟩
  | rLoad4 a b c hrd =>
    have hrl : s.lock = LockSt.rlocked := hs.rlock (by rw [hrd]; trivial)
    have hprev : a = s.cfg.osCh ∧ b = s.cfg.osSev ∧ c = s.cfg.appCh := by
      have := hs.rinv; rw [hrd] at this; exact this
    have hal : tagsAligned s.cfg := hs.aligned (by rw [hrl]; decide)
    refine ⟨?_, ?_, ?_, ?_, ?_, ?_⟩
    · intro k hk
      exfalso
      have := hs.wlock k hk
      rw [hrl] at this
      exact absurd this (by decide)
    · exact hs.wexcl
    · intro hm; exact hm.elim
    · intro _; exact hal
    · exact hs.winv
    · rw [hprev.1, hprev.2.1, hprev.2.2]; exact hal
  | rRestart a b c d hrd =>
    refine ⟨hs.wlock, hs.wexcl, ?_, hs.aligned, hs.winv, ?_⟩
    · intro hm; exact hm.elim
    · trivial

theorem Reach_Inv {s : Sys} (h : Reach s) : Inv s := by
  induction h with
  | init =>
    refine ⟨?_, ?_, ?_, ?_, ?_, ?_⟩
    · intro i hi; exact hi.elim
    · intro i k hi _; exact hi.elim
    · intro hm; exact hm.elim
    · intro _; exact ⟨rfl, rfl, rfl⟩
    · intro i; trivial
    · trivial
  | step _ st ih => exact Inv_step ih st

/-- C6: in every reachable interleaving of reads and writes, a completed
reader snapshot carries a single provenance tag on all four fields — the
(channel, minSeverity) pairs it observed come entirely from one write (or
the initial defaults), never mixing fields of two different writes. -/
theorem C6_no_torn_read (s : Sys) (h : Reach s) (a b c d : TaggedStr)
    (hdone : s.rd = RPC.done a b c d) :
    a.tag = b.tag ∧ b.tag = c.tag ∧ c.tag = d.tag := by
  have hi := Reach_Inv h
  have hr := hi.rinv
  rw [hdone] at hr
  exact hr

/-- Witness for C6: after one full `POST /config` write (tag 1) followed by
one full read, the reader's four observed fields all carry tag 1. -/
theorem C6_witness :
    (⟨"#os2", 1⟩ : TaggedStr).tag = (⟨"LOW", 1⟩ : TaggedStr).tag ∧
    (⟨"LOW", 1⟩ : TaggedStr).tag = (⟨"#app2", 1⟩ : TaggedStr).tag ∧
    (⟨"#app2", 1⟩ : TaggedStr).tag = (⟨"CRITICAL", 1⟩ : TaggedStr).tag := by
  have h0 : Reach initSys := Reach.init
  have h1 := Reach.step h0 (Step.wAcquire initSys true "#os2" "LOW" "#app2" "CRITICAL" rfl rfl)
  have h2 := Reach.step h1 (Step.wStore1 _ true ⟨"#os2", "LOW", "#app2", "CRITICAL", 1⟩ rfl)
  have h3 := Reach.step h2 (Step.wStore2 _ true ⟨"#os2", "LOW", "#app2", "CRITICAL", 1⟩ rfl)
  have h4 := Reach.step h3 (Step.wStore3 _ true ⟨"#os2", "LOW", "#app2", "CRITICAL", 1⟩ rfl)
  have h5 := Reach.step h4 (Step.wStore4 _ true ⟨"#os2", "LOW", "#app2", "CRITICAL", 1⟩ rfl)
  have h6 := Reach.step h5 (Step.rAcquire _ rfl rfl)
  have h7 := Reach.step h6 (Step.rLoad1 _ rfl)
  have h8 := Reach.step h7 (Step.rLoad2 _ _ rfl)
  have h9 := Reach.step h8 (Step.rLoad3 _ _ _ rfl)
  have h10 := Reach.step h9 (Step.rLoad4 _ _ _ _ rfl)
  exact C6_no_torn_read _ h10 _ _ _ _ rfl

end P2S
